import Mathlib

/-!
Verification of the VOID virtual file-system layer (`src/fs/VirtualDisk.ts`)
and the kernel worker protocol (`src/kernel/worker.ts`).

The TypeScript source is shallowly embedded: the `Map<string, Uint8Array>`
Content Store becomes an insertion-ordered association list (JS `Map.set`
updates an existing key in place and appends a new key), the `Set<string>`
Dirty Set becomes a duplicate-free list, byte arrays become `List Nat`,
IndexedDB becomes an association list of records, and each method becomes a
pure function returning `Except DiskError _` where the source throws.
-/

namespace VoidFS

/-- Byte sequences; a `Uint8Array`'s contents. -/
abbrev Bytes := List Nat

/-- Association-list lookup, first binding wins (JS `Map.get`). -/
def lookupA {α : Type} : List (String × α) → String → Option α
  | [], _ => none
  | (k, v) :: rest, key => if k = key then some v else lookupA rest key

/-- JS `Map.set`: update an existing key in place, else append at the end. -/
def setA {α : Type} : List (String × α) → String → α → List (String × α)
  | [], key, v => [(key, v)]
  | (k, w) :: rest, key, v =>
      if k = key then (key, v) :: rest else (k, w) :: setA rest key v

/-- JS `Map.delete`: remove the binding for a key. -/
def eraseA {α : Type} : List (String × α) → String → List (String × α)
  | [], _ => []
  | (k, w) :: rest, key =>
      if k = key then eraseA rest key else (k, w) :: eraseA rest key

/-- JS `Set.add`: append if not already present. -/
def addS (l : List String) (k : String) : List String :=
  if k ∈ l then l else l ++ [k]

/-! JS string primitives used by the source, implemented over the
character list of a `String` so that they reduce inside the kernel. -/

/-- Rebuild a string from its characters. -/
def ofChars (l : List Char) : String :=
  ⟨l⟩

/-- JS `a + b` on strings. -/
def jsAppend (a b : String) : String :=
  ofChars (a.data ++ b.data)

/-- JS `s.length`. -/
def jsLength (s : String) : Nat :=
  s.data.length

/-- JS `s.startsWith(pre)`. -/
def jsStartsWith (s pre : String) : Bool :=
  pre.data.isPrefixOf s.data

/-- JS `s.endsWith(suf)`. -/
def jsEndsWith (s suf : String) : Bool :=
  suf.data.isSuffixOf s.data

/-- JS `s.slice(0, -1)`: drop the last character. -/
def jsDropLast (s : String) : String :=
  ofChars (s.data.take (s.data.length - 1))

/-- JS `s.slice(n)`: drop the first `n` characters. -/
def jsDrop (s : String) (n : Nat) : String :=
  ofChars (s.data.drop n)

/-- Split a character list at every occurrence of `sep` (JS
`s.split(sep)` for a one-character separator: always at least one
segment, empty segments kept). -/
def splitChars (sep : Char) : List Char → List (List Char)
  | [] => [[]]
  | c :: rest =>
      let r := splitChars sep rest
      if c = sep then [] :: r
      else
        match r with
        | [] => [[c]]
        | seg :: segs => (c :: seg) :: segs

/-- JS `s.split(sep)` for a one-character separator. -/
def jsSplit (s : String) (sep : Char) : List String :=
  (splitChars sep s.data).map ofChars

/-- JS `s.replace(/\n/g, '\r\n')`. -/
def jsReplaceNewlines (s : String) : String :=
  ofChars (s.data.foldr
    (fun c acc => if c = '\n' then '\r' :: '\n' :: acc else c :: acc) [])

/-- Decidable equality for `Except` results. -/
instance {ε α : Type} [DecidableEq ε] [DecidableEq α] :
    DecidableEq (Except ε α) := fun a b =>
  match a, b with
  | .ok x, .ok y =>
      match decEq x y with
      | isTrue h => isTrue (by rw [h])
      | isFalse h => isFalse (by intro hc; cases hc; exact h rfl)
  | .error x, .error y =>
      match decEq x y with
      | isTrue h => isTrue (by rw [h])
      | isFalse h => isFalse (by intro hc; cases hc; exact h rfl)
  | .ok _, .error _ => isFalse (by intro hc; cases hc)
  | .error _, .ok _ => isFalse (by intro hc; cases hc)

/-- The two error families thrown by `VirtualDisk` sync operations:
`'[VirtualDisk] Disk not initialized. Call init() first.'` and
`'ENOENT: no such file or directory, … <path>'`. -/
inductive DiskError : Type
  | notInitialized : DiskError
  | notFound : String → DiskError
deriving DecidableEq, Repr

/-- The object returned by `statSync`. -/
structure FileStat where
  isDirectory : Bool
  size : Nat
deriving DecidableEq, Repr

/-- State of one `VirtualDisk` instance: `memory` is the Content Store,
`dirty` the Dirty Set, `isReady` the ready flag, and `hasDb` whether
`this.db` is non-null (the Backing Store opened successfully). -/
structure VirtualDisk where
  memory : List (String × Bytes)
  dirty : List String
  isReady : Bool
  hasDb : Bool
deriving DecidableEq, Repr

/-- A freshly constructed, un-booted disk. -/
def VirtualDisk.fresh : VirtualDisk :=
  { memory := [], dirty := [], isReady := false, hasDb := false }

/-- A freshly booted disk with nothing stored: the state right after a
successful `init()` against an empty Backing Store. -/
def VirtualDisk.bootedEmpty : VirtualDisk :=
  { memory := [], dirty := [], isReady := true, hasDb := true }

/-- A Backing Store record: `{path, data, modified}`, keyed by path. -/
abbrev Backing := List (String × (Bytes × Nat))

/-- `readFileSync`: guard on `isReady`, then return (a copy of) the bytes
or throw `ENOENT`. -/
def readFileSync (d : VirtualDisk) (path : String) : Except DiskError Bytes :=
  if d.isReady = false then .error .notInitialized
  else
    match lookupA d.memory path with
    | none => .error (.notFound path)
    | some data => .ok data

/-- `writeFileSync`: guard on `isReady`, then store a copy of the bytes and
mark the path dirty. The stored entry carries no timestamp. -/
def writeFileSync (d : VirtualDisk) (path : String) (data : Bytes) :
    Except DiskError VirtualDisk :=
  if d.isReady = false then .error .notInitialized
  else .ok { d with memory := setA d.memory path data,
                    dirty := addS d.dirty path }

/-- `existsSync`: a bare membership test on the Content Store — the source
performs no `isReady` check here. -/
def existsSync (d : VirtualDisk) (path : String) : Bool :=
  (lookupA d.memory path).isSome

/-- `unlinkSync`: guard on `isReady`, throw `ENOENT` if absent, else remove
the entry and mark the path dirty (tombstone for the next flush). -/
def unlinkSync (d : VirtualDisk) (path : String) : Except DiskError VirtualDisk :=
  if d.isReady = false then .error .notInitialized
  else if (lookupA d.memory path).isSome = false then .error (.notFound path)
  else .ok { d with memory := eraseA d.memory path,
                    dirty := addS d.dirty path }

/-- `listFiles`: all keys of the Content Store. -/
def listFiles (d : VirtualDisk) : List String :=
  d.memory.map Prod.fst

/-- Strip a single trailing `/` (the `endsWith('/') ? slice(0,-1) : …`
normalisation used by `readdirSync` and `statSync`). -/
def normSlash (p : String) : String :=
  if jsEndsWith p "/" then jsDropLast p else p

/-- `readdirSync`: immediate child segments of the directory, deduplicated
in insertion order (the source accumulates into a JS `Set`). No `isReady`
check in the source. -/
def readdirSync (d : VirtualDisk) (dirPath : String) : List String :=
  if dirPath = "" ∨ dirPath = "/" then
    d.memory.foldl (fun acc e =>
      match (jsSplit e.1 '/').filter (fun s => decide (s ≠ "")) with
      | [] => acc
      | first :: _ => addS acc first) []
  else
    let nd := normSlash dirPath
    d.memory.foldl (fun acc e =>
      if jsStartsWith e.1 (jsAppend nd "/") then
        match jsSplit (jsDrop e.1 (jsLength nd + 1)) '/' with
        | [] => acc
        | first :: _ => if first = "" then acc else addS acc first
      else acc) []

/-- `statSync`: root is always a directory; an entry is a file with its byte
length; a non-entry with a descendant entry is a directory; else `ENOENT`.
No `isReady` check in the source. -/
def statSync (d : VirtualDisk) (path : String) : Except DiskError FileStat :=
  if path = "" ∨ path = "/" then .ok { isDirectory := true, size := 0 }
  else
    let np := normSlash path
    match lookupA d.memory np with
    | some data => .ok { isDirectory := false, size := data.length }
    | none =>
        if d.memory.any (fun e => jsStartsWith e.1 (jsAppend np "/")) then
          .ok { isDirectory := true, size := 0 }
        else .error (.notFound path)

/-- `init`: `await openDB(...)` either yields the stored records or throws;
the source wraps it in no try/catch, so an open failure propagates out of
`init` and none of the subsequent statements (loading memory, starting the
flush timer, setting `isReady`) run. On success every record's bytes are
loaded into the Content Store and `isReady` is set. -/
def init (d : VirtualDisk) (openResult : Except String (List (String × Bytes × Nat))) :
    Except String VirtualDisk :=
  match openResult with
  | .error e => .error e
  | .ok records =>
      .ok { memory := records.foldl (fun m r => setA m r.1 r.2.1) d.memory,
            dirty := d.dirty, isReady := true, hasDb := true }

/-- `ready()`. -/
def ready (d : VirtualDisk) : Bool :=
  d.isReady

/-! ### Flush

`flush` first returns early when `this.db` is null or the Dirty Set is empty;
otherwise it snapshots and clears the Dirty Set, then runs one read-write
transaction that, for each snapshotted path, `put`s the current in-memory
bytes stamped `Date.now()` (the flush-time clock) or `delete`s the record
when the path is gone from memory. The transaction touches neither the
Content Store nor the Dirty Set, and its failure (`tx.done` rejecting)
rolls the Backing Store back and restores nothing to the Dirty Set. -/

/-- The body of the flush transaction's loop for one path. -/
def flushStep (mem : List (String × Bytes)) (now : Nat) (b : Backing)
    (path : String) : Backing :=
  match lookupA mem path with
  | some data => setA b path (data, now)
  | none => eraseA b path

/-- The whole flush transaction over a snapshot of dirty paths. -/
def flushApply (paths : List String) (mem : List (String × Bytes))
    (b : Backing) (now : Nat) : Backing :=
  paths.foldl (flushStep mem now) b

/-- `const paths = Array.from(this.dirty); this.dirty.clear();` —
the snapshot-and-clear that opens every flush, before any Backing Store
write. -/
def flushSnapshot (d : VirtualDisk) : List String × VirtualDisk :=
  (d.dirty, { d with dirty := [] })

/-- Commit of the flush transaction: on success the Backing Store is
updated for every snapshotted path; on failure the all-or-nothing
transaction leaves it unchanged, and the Dirty Set is not restored either
way. -/
def flushCommit (txOk : Bool) (paths : List String)
    (mem : List (String × Bytes)) (b : Backing) (now : Nat) : Backing :=
  if txOk then flushApply paths mem b now else b

/-- `flush` with a successful transaction, as one step. -/
def flush (d : VirtualDisk) (b : Backing) (now : Nat) :
    VirtualDisk × Backing :=
  if d.hasDb = false ∨ d.dirty = [] then (d, b)
  else
    let snap := flushSnapshot d
    (snap.2, flushApply snap.1 snap.2.memory b now)

/-- `forceFlush`: `await this.flush()`. -/
def forceFlush (d : VirtualDisk) (b : Backing) (now : Nat) :
    VirtualDisk × Backing :=
  flush d b now

/-- The bytes the Backing Store holds for a path (record minus timestamp). -/
def backingBytes (b : Backing) (path : String) : Option Bytes :=
  (lookupA b path).map Prod.fst

/-! ### Post-boot operation sequences -/

/-- One synchronous mutating operation issued against the disk. -/
inductive Op : Type
  | write : String → Bytes → Op
  | unlink : String → Op
deriving DecidableEq, Repr

/-- Run one operation; a thrown error leaves the instance state as it was. -/
def applyOp (d : VirtualDisk) : Op → VirtualDisk
  | .write p bs =>
      match writeFileSync d p bs with
      | .ok d' => d'
      | .error _ => d
  | .unlink p =>
      match unlinkSync d p with
      | .ok d' => d'
      | .error _ => d

/-- Run a sequence of operations in order. -/
def applyOps (d : VirtualDisk) (ops : List Op) : VirtualDisk :=
  ops.foldl applyOp d

/-! ### The kernel worker (`src/kernel/worker.ts`) -/

/-- Messages the worker posts to the main thread (`KernelResponse` of
`kernel/types`): `RESPONSE`, `TERMINAL_OUTPUT`, or `ERROR`. A `READ_FILE`
response payload is `null` or a byte array, so it is modelled as
`Option Bytes`; other payload shapes are rendered as strings. -/
inductive KernelResponse : Type
  | response : Option Bytes → KernelResponse
  | responseText : String → KernelResponse
  | terminalOutput : String → KernelResponse
  | error : String → KernelResponse
deriving DecidableEq, Repr

/-- The error message a `DiskError` carries across the worker's catch-all. -/
def diskErrorMessage : DiskError → String
  | .notInitialized => "[VirtualDisk] Disk not initialized. Call init() first."
  | .notFound p => "ENOENT: no such file or directory, open " ++ p

/-- The `READ_FILE` case of the worker's message handler: when
`existsSync` is false it posts `RESPONSE` with a `null` payload and stops;
only for an existing path does it call `readFileSync`, whose exception
would be converted to an `ERROR` message by the dispatch-boundary catch. -/
def handleReadFile (d : VirtualDisk) (path : String) : KernelResponse :=
  if existsSync d path = false then .response none
  else
    match readFileSync d path with
    | .ok data => .response (some data)
    | .error e => .error (diskErrorMessage e)

/-- State of the worker's `OutputBatcher`: the pending chunk buffer and
whether a 16ms flush timeout is scheduled. -/
structure OutputBatcher where
  buffer : List String
  timeoutPending : Bool
deriving DecidableEq, Repr

/-- `OutputBatcher.write`: push the chunk and schedule a flush if none is
pending; nothing is posted yet. -/
def OutputBatcher.write (b : OutputBatcher) (text : String) : OutputBatcher :=
  { buffer := b.buffer ++ [text], timeoutPending := true }

/-- `OutputBatcher.flush`: post the joined buffer as one `TERMINAL_OUTPUT`
message (nothing when the buffer is empty). -/
def OutputBatcher.flushOut (b : OutputBatcher) :
    OutputBatcher × List KernelResponse :=
  if b.buffer = [] then (b, [])
  else ({ buffer := [], timeoutPending := false },
        [.terminalOutput (String.join b.buffer)])

/-- The newline normalisation inside the Pyodide `stdout` callback:
every `\n` becomes `\r\n`, and a trailing `\r\n` is appended if missing. -/
def formatStdout (text : String) : String :=
  let formatted := jsReplaceNewlines text
  if jsEndsWith formatted "\r\n" then formatted
  else jsAppend formatted "\r\n"

/-- The Pyodide `stdout` callback itself: it posts the formatted text as a
`TERMINAL_OUTPUT` message immediately via `self.postMessage`, leaving the
`OutputBatcher` instance untouched. Returns the batcher state after the
call and the messages posted during it. -/
def pyStdoutStep (b : OutputBatcher) (text : String) :
    OutputBatcher × List KernelResponse :=
  (b, [.terminalOutput (formatStdout text)])

/-! ### Reference-level model of `Uint8Array` aliasing

To state the defensive-copy property of `writeFileSync`/`readFileSync`
(`new Uint8Array(data)` at both lines), byte arrays are modelled as heap
references: the heap is a list of byte sequences indexed by allocation
order, and mutating one array in place cannot affect another reference.
The Content Store maps paths to references in this model. -/

/-- The heap: cell `r` holds the contents of the `Uint8Array` with
reference `r`. -/
abbrev Heap := List Bytes

/-- Read the array behind a reference. -/
def heapGet (h : Heap) (r : Nat) : Bytes :=
  h.getD r []

/-- `new Uint8Array(src)`: allocate a fresh array holding a copy. -/
def heapAlloc (h : Heap) (contents : Bytes) : Heap × Nat :=
  (h ++ [contents], h.length)

/-- In-place mutation `arr[i] = v` of the array behind reference `r`. -/
def heapSet (h : Heap) (r i v : Nat) : Heap :=
  h.set r ((h.getD r []).set i v)

/-- The `VirtualDisk` with `Uint8Array`s as references into a heap. -/
structure HDisk where
  memory : List (String × Nat)
  dirty : List String
  isReady : Bool
deriving DecidableEq, Repr

/-- `writeFileSync` on the reference model:
`this.memory.set(path, new Uint8Array(data))` — copy the caller's array
into a fresh allocation and store the fresh reference. -/
def writeFileSyncH (h : Heap) (d : HDisk) (path : String) (r : Nat) :
    Except DiskError (Heap × HDisk) :=
  if d.isReady = false then .error .notInitialized
  else
    let alloc := heapAlloc h (heapGet h r)
    .ok (alloc.1, { d with memory := setA d.memory path alloc.2,
                           dirty := addS d.dirty path })

/-- `readFileSync` on the reference model: `return new Uint8Array(data)` —
a fresh copy of the stored array, never the stored reference itself. -/
def readFileSyncH (h : Heap) (d : HDisk) (path : String) :
    Except DiskError (Heap × Nat) :=
  if d.isReady = false then .error .notInitialized
  else
    match lookupA d.memory path with
    | none => .error (.notFound path)
    | some r0 =>
        let alloc := heapAlloc h (heapGet h r0)
        .ok alloc

/-! ### Association-list and heap lemmas -/

theorem lookupA_setA {α : Type} (l : List (String × α)) (k p : String) (v : α) :
    lookupA (setA l k v) p = if p = k then some v else lookupA l p := by
  induction l with
  | nil =>
      by_cases h : p = k <;> by_cases h2 : k = p <;> simp_all [setA, lookupA]
  | cons e rest ih =>
      obtain ⟨q, w⟩ := e
      by_cases hq : q = k <;> by_cases h1 : q = p <;> by_cases h2 : p = k <;>
        simp_all [setA, lookupA]

theorem lookupA_eraseA {α : Type} (l : List (String × α)) (k p : String) :
    lookupA (eraseA l k) p = if p = k then none else lookupA l p := by
  induction l with
  | nil => simp [eraseA, lookupA]
  | cons e rest ih =>
      obtain ⟨q, w⟩ := e
      by_cases hq : q = k <;> by_cases h1 : q = p <;> by_cases h2 : p = k <;>
        simp_all [eraseA, lookupA]

theorem mem_addS (l : List String) (k p : String) :
    p ∈ addS l k ↔ p ∈ l ∨ p = k := by
  unfold addS
  by_cases h : k ∈ l
  · simp only [if_pos h]
    constructor
    · exact Or.inl
    · rintro (h' | rfl)
      · exact h'
      · exact h
  · simp [if_neg h, List.mem_append]

theorem heapGet_alloc_self (h : Heap) (c : Bytes) :
    heapGet (h ++ [c]) h.length = c := by
  unfold heapGet
  rw [List.getD_append_right h [c] [] h.length le_rfl]
  simp [List.getD]

theorem heapGet_append_lt (h : Heap) (c : Bytes) (r : Nat) (hr : r < h.length) :
    heapGet (h ++ [c]) r = heapGet h r := by
  unfold heapGet
  exact List.getD_append h [c] [] r hr

theorem heapGet_set_ne (h : Heap) (r i v s : Nat) (hne : r ≠ s) :
    heapGet (heapSet h r i v) s = heapGet h s := by
  simp [heapGet, heapSet, List.getD_eq_getElem?_getD, List.getElem?_set_ne hne]

/-! ### Flush lemmas -/

theorem lookupA_flushApply (paths : List String) (mem : List (String × Bytes))
    (b : Backing) (now : Nat) (p : String) :
    lookupA (flushApply paths mem b now) p =
      if p ∈ paths then (lookupA mem p).map (fun bs => (bs, now))
      else lookupA b p := by
  induction paths generalizing b with
  | nil => simp [flushApply]
  | cons q rest ih =>
      simp only [flushApply, List.foldl_cons] at ih ⊢
      rw [ih (flushStep mem now b q)]
      by_cases hp : p ∈ rest
      · simp [hp, List.mem_cons]
      · by_cases hpq : p = q
        · subst hpq
          simp only [hp, if_false, List.mem_cons, true_or, if_true]
          unfold flushStep
          cases hm : lookupA mem p with
          | none => simp [lookupA_eraseA]
          | some data => simp [lookupA_setA]
        · have : ¬ p ∈ q :: rest := by simp [List.mem_cons, hpq, hp]
          simp only [hp, if_false, this]
          unfold flushStep
          cases hm : lookupA mem q with
          | none => simp [lookupA_eraseA, hpq]
          | some data => simp [lookupA_setA, hpq]

theorem backingBytes_flushApply (paths : List String)
    (mem : List (String × Bytes)) (b : Backing) (now : Nat) (p : String) :
    backingBytes (flushApply paths mem b now) p =
      if p ∈ paths then lookupA mem p else backingBytes b p := by
  unfold backingBytes
  rw [lookupA_flushApply]
  by_cases hp : p ∈ paths
  · simp only [hp, if_true]
    cases lookupA mem p <;> simp
  · simp [hp]

/-- The agreement the Backing Store keeps with the Content Store on every
non-dirty path. -/
def FlushInv (d : VirtualDisk) (b : Backing) : Prop :=
  ∀ p, p ∉ d.dirty → backingBytes b p = lookupA d.memory p

theorem applyOp_flags (d : VirtualDisk) (op : Op) :
    (applyOp d op).isReady = d.isReady ∧ (applyOp d op).hasDb = d.hasDb := by
  cases op with
  | write q bs =>
      by_cases hr : d.isReady = false <;> simp [applyOp, writeFileSync, hr]
  | unlink q =>
      by_cases hr : d.isReady = false <;>
        by_cases hl : (lookupA d.memory q).isSome = false <;>
          simp [applyOp, unlinkSync, hr, hl]

theorem applyOps_flags (d : VirtualDisk) (ops : List Op) :
    (applyOps d ops).isReady = d.isReady ∧ (applyOps d ops).hasDb = d.hasDb := by
  induction ops generalizing d with
  | nil => simp [applyOps]
  | cons op rest ih =>
      simp only [applyOps, List.foldl_cons] at ih ⊢
      rw [(ih (applyOp d op)).1, (ih (applyOp d op)).2]
      exact applyOp_flags d op

theorem applyOp_inv (d : VirtualDisk) (b : Backing) (op : Op)
    (h : FlushInv d b) : FlushInv (applyOp d op) b := by
  cases op with
  | write q bs =>
      by_cases hr : d.isReady = false
      · have hd : applyOp d (Op.write q bs) = d := by
          simp [applyOp, writeFileSync, hr]
        rw [hd]; exact h
      · have hd : applyOp d (Op.write q bs) =
            { d with memory := setA d.memory q bs, dirty := addS d.dirty q } := by
          simp [applyOp, writeFileSync, hr]
        rw [hd]
        intro p hp
        simp only at hp
        rw [mem_addS] at hp
        push_neg at hp
        simp only
        rw [lookupA_setA, if_neg hp.2]
        exact h p hp.1
  | unlink q =>
      by_cases hr : d.isReady = false
      · have hd : applyOp d (Op.unlink q) = d := by
          simp [applyOp, unlinkSync, hr]
        rw [hd]; exact h
      · by_cases hl : (lookupA d.memory q).isSome = false
        · have hd : applyOp d (Op.unlink q) = d := by
            simp [applyOp, unlinkSync, hr, hl]
          rw [hd]; exact h
        · have hd : applyOp d (Op.unlink q) =
              { d with memory := eraseA d.memory q, dirty := addS d.dirty q } := by
            simp [applyOp, unlinkSync, hr, hl]
          rw [hd]
          intro p hp
          simp only at hp
          rw [mem_addS] at hp
          push_neg at hp
          simp only
          rw [lookupA_eraseA, if_neg hp.2]
          exact h p hp.1

theorem applyOps_inv (d : VirtualDisk) (b : Backing) (ops : List Op)
    (h : FlushInv d b) : FlushInv (applyOps d ops) b := by
  induction ops generalizing d with
  | nil => exact h
  | cons op rest ih =>
      simp only [applyOps, List.foldl_cons] at ih ⊢
      exact ih (applyOp d op) (applyOp_inv d b op h)

/-! ### Claim theorems -/

/-- C3: starting from a booted state (Backing Store loaded into memory,
Dirty Set empty), any sequence of `writeFileSync`/`unlinkSync` operations
followed by one successful `forceFlush()` leaves the Backing Store's record
set exactly equal, path by path and byte for byte, to the Content Store:
every in-memory path has a backing record with the same bytes and no
backing record remains for a deleted path. -/
theorem forceFlush_convergence (d : VirtualDisk) (b : Backing)
    (ops : List Op) (now : Nat)
    (_hready : d.isReady = true) (hdb : d.hasDb = true)
    (_hdirty : d.dirty = []) (hinv : FlushInv d b) :
    ∀ p, backingBytes (forceFlush (applyOps d ops) b now).2 p =
      lookupA (forceFlush (applyOps d ops) b now).1.memory p := by
  intro p
  have hInv : FlushInv (applyOps d ops) b := applyOps_inv d b ops hinv
  have hdb' : (applyOps d ops).hasDb = true := by
    rw [(applyOps_flags d ops).2]; exact hdb
  unfold forceFlush flush
  by_cases hd : (applyOps d ops).dirty = []
  · simp only [hdb', hd, Bool.true_eq_false, false_or, if_true]
    exact hInv p (by simp [hd])
  · simp only [hdb', hd, Bool.true_eq_false, false_or, if_false,
      flushSnapshot]
    rw [backingBytes_flushApply]
    by_cases hp : p ∈ (applyOps d ops).dirty
    · simp [hp]
    · simp only [hp, if_false]
      exact hInv p hp

/-- C1 counterexample: on a fresh, un-booted disk (`isReady = false`)
`existsSync` completes and returns `false`, `readdirSync` completes and
returns an empty listing, and `statSync` on the root completes and returns
a directory stat — none of them fails with `NotInitialized`, refuting the
claim that every synchronous operation is guarded. -/
theorem preBoot_guard_counterexample :
    existsSync VirtualDisk.fresh "/x" = false ∧
    readdirSync VirtualDisk.fresh "/x" = [] ∧
    statSync VirtualDisk.fresh "/" =
      .ok { isDirectory := true, size := 0 } := by
  refine ⟨rfl, by decide, by decide⟩

/-- C1 (amended): before `boot()` completes, `readFileSync`,
`writeFileSync` and `unlinkSync` fail with `NotInitialized` for every
argument and leave the Content Store and Dirty Set untouched (the guard
throws before any mutation), while `existsSync`, `readdirSync` and
`statSync` carry no initialization guard and simply read the (still empty)
Content Store: on a fresh un-booted disk `existsSync` answers `false` and
`readdirSync` answers the empty listing for every path. -/
theorem preBoot_guard (d : VirtualDisk) (p : String) (bs : Bytes)
    (h : d.isReady = false) :
    readFileSync d p = .error .notInitialized ∧
    writeFileSync d p bs = .error .notInitialized ∧
    unlinkSync d p = .error .notInitialized ∧
    existsSync VirtualDisk.fresh p = false ∧
    readdirSync VirtualDisk.fresh p = [] := by
  refine ⟨?_, ?_, ?_, rfl, ?_⟩
  · simp [readFileSync, h]
  · simp [writeFileSync, h]
  · simp [unlinkSync, h]
  · by_cases hp : p = "" ∨ p = "/" <;>
      simp [readdirSync, hp, VirtualDisk.fresh]

/-- Witness for C1 (amended) at a concrete un-booted disk. -/
theorem preBoot_guard_witness :
    readFileSync VirtualDisk.fresh "/x" = .error .notInitialized ∧
    writeFileSync VirtualDisk.fresh "/x" [1] = .error .notInitialized ∧
    unlinkSync VirtualDisk.fresh "/x" = .error .notInitialized ∧
    existsSync VirtualDisk.fresh "/x" = false ∧
    readdirSync VirtualDisk.fresh "/x" = [] :=
  preBoot_guard VirtualDisk.fresh "/x" [1] rfl

/-- C2 counterexample: when opening the Backing Store fails, `init`
propagates the failure — at the concrete fresh disk it returns the error
(`boot()` rejects rather than resolves), and since no statement of `init`
ran, the instance is unchanged and `ready()` is still `false`. -/
theorem degraded_boot_counterexample :
    init VirtualDisk.fresh (.error "open failed") = .error "open failed" ∧
    ready VirtualDisk.fresh = false :=
  ⟨rfl, rfl⟩

/-- C2 (amended): if opening the Backing Store fails during boot, `init`
rejects with the propagated error (the source has no try/catch around
`openDB`), the disk instance is left as it was, so `ready()` remains
`false` and the guarded sync operations keep failing with
`NotInitialized` instead of operating in-memory. -/
theorem degraded_boot (d : VirtualDisk) (e : String) (p : String)
    (h : d.isReady = false) :
    init d (.error e) = .error e ∧
    ready d = false ∧
    readFileSync d p = .error .notInitialized := by
  refine ⟨rfl, h, ?_⟩
  simp [readFileSync, h]

/-- Witness for C2 (amended) at a concrete un-booted disk. -/
theorem degraded_boot_witness :
    init VirtualDisk.fresh (.error "quota") = .error "quota" ∧
    ready VirtualDisk.fresh = false ∧
    readFileSync VirtualDisk.fresh "/x" = .error .notInitialized :=
  degraded_boot VirtualDisk.fresh "quota" "/x" rfl

/-- Witness for C3 at a concrete post-boot state and operation sequence. -/
theorem forceFlush_convergence_witness :
    backingBytes
        (forceFlush
          (applyOps VirtualDisk.bootedEmpty
            [Op.write "/a" [1], Op.write "/b" [2, 3], Op.unlink "/a"])
          [] 5).2 "/b" =
      lookupA
        (forceFlush
          (applyOps VirtualDisk.bootedEmpty
            [Op.write "/a" [1], Op.write "/b" [2, 3], Op.unlink "/a"])
          [] 5).1.memory "/b" :=
  forceFlush_convergence VirtualDisk.bootedEmpty
    [] [Op.write "/a" [1], Op.write "/b" [2, 3], Op.unlink "/a"] 5
    rfl rfl rfl (fun _ _ => rfl) "/b"

/-- C4: after boot, `writeFileSync(p, arr)` followed by `readFileSync(p)`
returns bytes equal to the bytes of `arr` at write time; and both sides are
defensive copies (`new Uint8Array(data)` at write and at read): mutating
the caller's array `arr` in place, or mutating the array the read
returned, leaves the stored content untouched — a subsequent
`readFileSync` still yields the original bytes. -/
theorem write_read_roundtrip (h : Heap) (d : HDisk) (p : String) (r : Nat)
    (hready : d.isReady = true) (hr : r < h.length) :
    ∃ h2 rOut,
      writeFileSyncH h d p r =
        .ok (h ++ [heapGet h r],
          { d with memory := setA d.memory p h.length,
                   dirty := addS d.dirty p }) ∧
      readFileSyncH (h ++ [heapGet h r])
          { d with memory := setA d.memory p h.length,
                   dirty := addS d.dirty p } p = .ok (h2, rOut) ∧
      heapGet h2 rOut = heapGet h r ∧
      ∀ i v j w,
        (readFileSyncH (heapSet (heapSet h2 r i v) rOut j w)
            { d with memory := setA d.memory p h.length,
                     dirty := addS d.dirty p } p).map
          (fun x => heapGet x.1 x.2) = .ok (heapGet h r) := by
  refine ⟨(h ++ [heapGet h r]) ++ [heapGet h r], h.length + 1, ?_, ?_, ?_, ?_⟩
  · simp [writeFileSyncH, hready, heapAlloc]
  · simp [readFileSyncH, hready, lookupA_setA, heapAlloc,
      heapGet_alloc_self]
  · have := heapGet_alloc_self (h ++ [heapGet h r]) (heapGet h r)
    simpa using this
  · intro i v j w
    have hne1 : h.length + 1 ≠ h.length := by omega
    have hne2 : r ≠ h.length := Nat.ne_of_lt hr
    have hg :
        heapGet (heapSet (heapSet ((h ++ [heapGet h r]) ++ [heapGet h r])
          r i v) (h.length + 1) j w) h.length = heapGet h r := by
      rw [heapGet_set_ne _ _ _ _ _ hne1, heapGet_set_ne _ _ _ _ _ hne2,
        heapGet_append_lt _ _ _ (by simp)]
      exact heapGet_alloc_self h _
    simp [readFileSyncH, hready, lookupA_setA, heapAlloc, Except.map,
      heapGet_alloc_self]
    simpa using hg

/-- Witness for C4 at a concrete heap, disk and path. -/
theorem write_read_roundtrip_witness :
    ∃ h2 rOut,
      writeFileSyncH [[9]] { memory := [], dirty := [], isReady := true }
          "/f" 0 =
        .ok ([[9], [9]],
          { memory := setA ([] : List (String × Nat)) "/f" 1,
            dirty := addS [] "/f", isReady := true }) ∧
      readFileSyncH [[9], [9]]
          { memory := setA ([] : List (String × Nat)) "/f" 1,
            dirty := addS [] "/f", isReady := true } "/f" = .ok (h2, rOut) ∧
      heapGet h2 rOut = [9] ∧
      ∀ i v j w,
        (readFileSyncH (heapSet (heapSet h2 0 i v) rOut j w)
            { memory := setA ([] : List (String × Nat)) "/f" 1,
              dirty := addS [] "/f", isReady := true } "/f").map
          (fun x => heapGet x.1 x.2) = .ok [9] :=
  write_read_roundtrip [[9]] { memory := [], dirty := [], isReady := true }
    "/f" 0 rfl (by decide)

/-- C5 counterexample: the `modified` timestamp is not set at write time —
flushing the very same written entry at clock 7 stamps its backing record
`7` and at clock 9 stamps it `9`, so the timestamp is determined by the
flush-time `Date.now()`, not by the write (the in-memory entry stores only
bytes and carries no timestamp field at all). -/
theorem modified_on_write_counterexample :
    (flush { memory := [("/a", [1])], dirty := ["/a"],
             isReady := true, hasDb := true } [] 7).2 = [("/a", ([1], 7))] ∧
    (flush { memory := [("/a", [1])], dirty := ["/a"],
             isReady := true, hasDb := true } [] 9).2 = [("/a", ([1], 9))] ∧
    (7 : Nat) ≠ 9 := by
  refine ⟨by decide, by decide, by decide⟩

/-- C5 (amended): `writeFileSync(p, b)` stores a copy of the bytes,
overwriting any prior value and leaving other entries untouched, and adds
`p` to the Dirty Set; the Content Store entry carries no `modified`
timestamp — `modified` is only materialised when a flush writes the
backing record, stamped with the flush-time clock. -/
theorem write_semantics (d : VirtualDisk) (b : Backing) (p : String)
    (bs : Bytes) (now : Nat) (hready : d.isReady = true)
    (hdb : d.hasDb = true) :
    ∃ d', writeFileSync d p bs = .ok d' ∧
      lookupA d'.memory p = some bs ∧
      p ∈ d'.dirty ∧
      (∀ q, q ≠ p → lookupA d'.memory q = lookupA d.memory q) ∧
      lookupA (flush d' b now).2 p = some (bs, now) := by
  refine ⟨{ d with memory := setA d.memory p bs, dirty := addS d.dirty p },
    ?_, ?_, ?_, ?_, ?_⟩
  · simp [writeFileSync, hready]
  · simp [lookupA_setA]
  · exact (mem_addS d.dirty p p).mpr (Or.inr rfl)
  · intro q hq
    simp [lookupA_setA, hq]
  · have hne : addS d.dirty p ≠ [] := by
      unfold addS
      by_cases hm : p ∈ d.dirty
      · simp only [if_pos hm]
        intro hl
        rw [hl] at hm
        simp at hm
      · simp [if_neg hm]
    simp only [flush, hdb, hne, Bool.true_eq_false, false_or, if_false,
      flushSnapshot]
    rw [lookupA_flushApply]
    simp [(mem_addS d.dirty p p).mpr (Or.inr rfl), lookupA_setA]

/-- Witness for C5 (amended) at a concrete post-boot disk. -/
theorem write_semantics_witness :
    ∃ d', writeFileSync VirtualDisk.bootedEmpty "/a" [1] = .ok d' ∧
      lookupA d'.memory "/a" = some [1] ∧
      "/a" ∈ d'.dirty ∧
      (∀ q, q ≠ "/a" →
        lookupA d'.memory q = lookupA VirtualDisk.bootedEmpty.memory q) ∧
      lookupA (flush d' [] 7).2 "/a" = some ([1], 7) :=
  write_semantics VirtualDisk.bootedEmpty [] "/a" [1] 7 rfl rfl

/-- C6 counterexample: a single engine stdout chunk is posted as a
`TERMINAL_OUTPUT` message in the same step, with the `OutputBatcher`'s
state untouched — whereas routing `"hi"` through the batcher would only
buffer it (`write` posts nothing until the ~16ms flush). The stdout path
therefore bypasses the batcher. -/
theorem stdout_batching_counterexample :
    pyStdoutStep { buffer := [], timeoutPending := false } "hi" =
      ({ buffer := [], timeoutPending := false },
       [KernelResponse.terminalOutput "hi\r\n"]) ∧
    OutputBatcher.write { buffer := [], timeoutPending := false } "hi" =
      { buffer := ["hi"], timeoutPending := true } := by
  refine ⟨by decide, by decide⟩

/-- C6 (amended): the execution engine's stdout callback does not route
through the `OutputBatcher`: for every batcher state and text chunk it
leaves the batcher unchanged and immediately posts exactly one
`TERMINAL_OUTPUT` message whose payload is the newline-normalised text
(each `\n` becomes `\r\n` and a trailing `\r\n` is appended when
missing); the batcher instance exists but is unused on the stdout path. -/
theorem stdout_direct_post (b : OutputBatcher) (text : String) :
    pyStdoutStep b text = (b, [.terminalOutput (formatStdout text)]) ∧
    formatStdout "Line 0\nLine 1\n" = "Line 0\r\nLine 1\r\n" ∧
    formatStdout "hi" = "hi\r\n" := by
  refine ⟨rfl, by decide, by decide⟩


/-- C7 counterexample: the root path `"/"` is absent from the empty booted
Content Store and has no descendant entry, yet `statSync "/"` succeeds
with a directory stat (the root short-circuit) instead of failing with
`NotFound` — so the claim, read over every absent path, is false. -/
theorem absent_path_errors_counterexample :
    lookupA VirtualDisk.bootedEmpty.memory "/" = none ∧
    VirtualDisk.bootedEmpty.memory.any
      (fun e => jsStartsWith e.1 "//") = false ∧
    statSync VirtualDisk.bootedEmpty "/" =
      .ok { isDirectory := true, size := 0 } := by
  refine ⟨rfl, rfl, by decide⟩

/-- C7 (amended): after boot, for every path `p` absent from the Content
Store, `readFileSync p` fails with `NotFound`; `unlinkSync p` fails with
`NotFound`, erroring before any mutation so the Content Store and Dirty
Set are unchanged; and `statSync p` fails with `NotFound` provided `p` is
not the root (`""`/`"/"`, which always stats as a directory), its
trailing-slash-normalised form is also absent, and no stored path lies
under it. -/
theorem absent_path_errors (d : VirtualDisk) (p : String)
    (hready : d.isReady = true) (habs : lookupA d.memory p = none) :
    readFileSync d p = .error (.notFound p) ∧
    unlinkSync d p = .error (.notFound p) ∧
    (p ≠ "" → p ≠ "/" → lookupA d.memory (normSlash p) = none →
      d.memory.any
        (fun e => jsStartsWith e.1 (jsAppend (normSlash p) "/")) = false →
      statSync d p = .error (.notFound p)) := by
  refine ⟨?_, ?_, ?_⟩
  · simp [readFileSync, hready, habs]
  · simp [unlinkSync, hready, habs]
  · intro h1 h2 hnorm hdesc
    simp [statSync, h1, h2, hnorm, hdesc]

/-- Witness for C7 (amended) at a concrete booted disk and absent path. -/
theorem absent_path_errors_witness :
    readFileSync VirtualDisk.bootedEmpty "/x" = .error (.notFound "/x") ∧
    unlinkSync VirtualDisk.bootedEmpty "/x" = .error (.notFound "/x") ∧
    ("/x" ≠ "" → "/x" ≠ "/" →
      lookupA VirtualDisk.bootedEmpty.memory (normSlash "/x") = none →
      VirtualDisk.bootedEmpty.memory.any
        (fun e => jsStartsWith e.1 (jsAppend (normSlash "/x") "/")) = false →
      statSync VirtualDisk.bootedEmpty "/x" = .error (.notFound "/x")) :=
  absent_path_errors VirtualDisk.bootedEmpty "/x" rfl rfl

/-- The spec's directory-inference example: a Content Store holding exactly
`/a/b.txt` and `/a/c/d.txt`. -/
def sampleDisk : VirtualDisk :=
  { memory := [("/a/b.txt", [1]), ("/a/c/d.txt", [2])],
    dirty := [], isReady := true, hasDb := true }

/-- C8: with exactly the entries `/a/b.txt` and `/a/c/d.txt`,
`readdirSync "/a"` returns the deduplicated immediate child segments
`{b.txt, c}` and `statSync "/a"` reports a directory of size 0; in
general, `statSync` on any path whose normalised form has no entry but at
least one descendant entry reports a directory of size 0, and the root
(`"/"` or `""`) always stats as a directory of size 0. -/
theorem directory_inference (d : VirtualDisk) (p : String)
    (hnorm : lookupA d.memory (normSlash p) = none)
    (hdesc : d.memory.any
      (fun e => jsStartsWith e.1 (jsAppend (normSlash p) "/")) = true) :
    readdirSync sampleDisk "/a" = ["b.txt", "c"] ∧
    statSync sampleDisk "/a" = .ok { isDirectory := true, size := 0 } ∧
    statSync d p = .ok { isDirectory := true, size := 0 } ∧
    statSync d "/" = .ok { isDirectory := true, size := 0 } ∧
    statSync d "" = .ok { isDirectory := true, size := 0 } := by
  refine ⟨by decide, by decide, ?_, ?_, ?_⟩
  · by_cases hroot : p = "" ∨ p = "/"
    · unfold statSync
      rw [if_pos hroot]
    · simp [statSync, hroot, hnorm, hdesc]
  · unfold statSync
    rw [if_pos (Or.inr rfl)]
  · unfold statSync
    rw [if_pos (Or.inl rfl)]

/-- Witness for C8 at the sample store and the inferred directory
`/a/c`. -/
theorem directory_inference_witness :
    readdirSync sampleDisk "/a" = ["b.txt", "c"] ∧
    statSync sampleDisk "/a" = .ok { isDirectory := true, size := 0 } ∧
    statSync sampleDisk "/a/c" = .ok { isDirectory := true, size := 0 } ∧
    statSync sampleDisk "/" = .ok { isDirectory := true, size := 0 } ∧
    statSync sampleDisk "" = .ok { isDirectory := true, size := 0 } :=
  directory_inference sampleDisk "/a/c" (by decide) (by decide)

/-- C9: for every path absent from the Content Store, the worker's
`READ_FILE` handler takes the `existsSync` early-out and posts a
successful `RESPONSE` whose payload is `null` — not an `ERROR` message —
so at the protocol boundary a missing file is indistinguishable from a
deliberate null result and `readFileSync`'s `NotFound` never surfaces for
`READ_FILE`. -/
theorem readFile_absent_null (d : VirtualDisk) (p : String)
    (habs : lookupA d.memory p = none) :
    handleReadFile d p = .response none := by
  simp [handleReadFile, existsSync, habs]

/-- Witness for C9 at a concrete booted disk and absent path. -/
theorem readFile_absent_null_witness :
    handleReadFile VirtualDisk.bootedEmpty "/missing" = .response none :=
  readFile_absent_null VirtualDisk.bootedEmpty "/missing" rfl

/-- C10: each flush snapshots exactly the Dirty Set and clears it before
any Backing Store write; a `writeFileSync p` performed after the snapshot
re-adds `p`, and since the transaction never touches the Dirty Set, `p`
survives the current flush cycle and appears in the next cycle's
snapshot; but a snapshotted path `q` that is not re-written is no longer
dirty, and if the transaction fails the Backing Store keeps its pre-flush
records while `q`'s needs-persisting marker is gone — lost until a later
write or delete of `q`. -/
theorem flush_snapshot_semantics (d : VirtualDisk) (b : Backing)
    (p q : String) (bs : Bytes) (now : Nat)
    (hready : d.isReady = true) (hq : q ∈ d.dirty) (hne : p ≠ q) :
    (flushSnapshot d).1 = d.dirty ∧
    (flushSnapshot d).2.dirty = [] ∧
    q ∈ (flushSnapshot d).1 ∧
    (∃ d', writeFileSync (flushSnapshot d).2 p bs = .ok d' ∧
      p ∈ d'.dirty ∧
      p ∈ (flushSnapshot d').1 ∧
      q ∉ d'.dirty ∧
      flushCommit false (flushSnapshot d).1 d'.memory b now = b) := by
  refine ⟨rfl, rfl, hq, ?_⟩
  refine ⟨{ memory := setA d.memory p bs, dirty := addS [] p,
            isReady := d.isReady, hasDb := d.hasDb }, ?_, ?_, ?_, ?_, rfl⟩
  · simp [writeFileSync, flushSnapshot, hready]
  · exact (mem_addS [] p p).mpr (Or.inr rfl)
  · exact (mem_addS [] p p).mpr (Or.inr rfl)
  · intro hmem
    rcases (mem_addS [] p q).mp hmem with h | h
    · simp at h
    · exact hne h.symm


/-- A booted disk with one dirty path, used to witness the flush
snapshot semantics. -/
def snapshotDemo : VirtualDisk :=
  { memory := [("/q", [5])], dirty := ["/q"], isReady := true,
    hasDb := true }

/-- Witness for C10 at a concrete mid-flush scenario. -/
theorem flush_snapshot_semantics_witness :
    (flushSnapshot snapshotDemo).1 = snapshotDemo.dirty ∧
    (flushSnapshot snapshotDemo).2.dirty = [] ∧
    "/q" ∈ (flushSnapshot snapshotDemo).1 ∧
    (∃ d', writeFileSync (flushSnapshot snapshotDemo).2 "/p" [7] =
        .ok d' ∧
      "/p" ∈ d'.dirty ∧
      "/p" ∈ (flushSnapshot d').1 ∧
      "/q" ∉ d'.dirty ∧
      flushCommit false (flushSnapshot snapshotDemo).1 d'.memory
        [("/q", ([5], 1))] 9 = [("/q", ([5], 1))]) :=
  flush_snapshot_semantics snapshotDemo [("/q", ([5], 1))] "/p" "/q"
    [7] 9 rfl (by decide) (by decide)

end VoidFS
